import Mathlib

/-!
Shallow embedding of the `amara` repository (modules
`amara/machinelearning/timeseries/model_wrappers.py` and
`amara/visuals/user_input.py`) together with theorems settling the
specification claims about it.

Console input is modelled as a list of input lines; a prompt loop that would
keep reading returns `none` once the list of lines is exhausted.  Python string
primitives (`int(...)`, `str.lower`, `str.rstrip`, `str.endswith`,
`str.split(', ')`, slicing `[1:-1]`) are embedded as executable functions over
`String` / `List Char`.
-/

namespace Amara

/-- Python `str.strip()` on a character list: drop whitespace on both ends. -/
def stripChars (cs : List Char) : List Char :=
  ((cs.dropWhile Char.isWhitespace).reverse.dropWhile Char.isWhitespace).reverse

/-- Python `str.rstrip()`: remove trailing whitespace. -/
def pyRstrip (s : String) : String :=
  String.mk ((s.data.reverse.dropWhile Char.isWhitespace).reverse)

/-- Python `str.endswith(suffix)`. -/
def pyEndsWith (s suffix : String) : Bool :=
  List.isSuffixOf suffix.data s.data

/-- Python `str.lower()` (ASCII case fold, enough for this repository). -/
def pyLower (s : String) : String :=
  String.mk (s.data.map Char.toLower)

/-- Value of a nonempty all-digit character list, `none` otherwise. -/
def digitsVal : List Char → Option Nat
  | [] => none
  | [c] => if c.isDigit then some (c.toNat - '0'.toNat) else none
  | c :: c' :: cs =>
    if c.isDigit then
      (digitsVal (c' :: cs)).map (fun n => (c.toNat - '0'.toNat) * 10 ^ (c' :: cs).length + n)
    else none

/-- Python `int(s)`: strip surrounding whitespace, optional sign, digits;
`none` models a raised `ValueError`. -/
def pythonInt (s : String) : Option Int :=
  match stripChars s.data with
  | '+' :: rest => (digitsVal rest).map Int.ofNat
  | '-' :: rest => (digitsVal rest).map (fun n => -(n : Int))
  | rest => (digitsVal rest).map Int.ofNat

namespace UserInput

/-- `OptionsList.prompt` (user_input.py lines 27-46): repeatedly read a line;
accept it when `int(line)` succeeds and lies in `1..len(options)`, returning
that integer; otherwise print an error and re-prompt.  `none` models an
exhausted input stream. -/
def OptionsList.prompt (options : List String) : List String → Option Int
  | [] => none
  | line :: rest =>
    match pythonInt line with
    | some choice =>
      if choice < 1 ∨ choice > (options.length : Int) then OptionsList.prompt options rest
      else some choice
    | none => OptionsList.prompt options rest

/-- `YesNoPrompt.__init__` prompt mending (user_input.py lines 53-55): append
`"(y/n): "` unless the right-stripped prompt already ends with `"(y/n):"`. -/
def YesNoPrompt.mendPrompt (prompt : String) : String :=
  if pyEndsWith (pyRstrip prompt) "(y/n):" then prompt
  else prompt ++ "(y/n): "

/-- `YesNoPrompt.prompt` (user_input.py lines 57-67): lowercase the line;
`"y"` returns `True`, `"n"` returns `False`, anything else re-prompts. -/
def YesNoPrompt.prompt : List String → Option Bool
  | [] => none
  | line :: rest =>
    let choice := pyLower line
    if choice = "y" ∨ choice = "n" then some (choice = "y")
    else YesNoPrompt.prompt rest

/-- `FreeIntegerInput.prompt` (user_input.py lines 77-105): collect integers
within `bounds` (rejecting duplicates when `unique`), empty line returns the
accumulated list. -/
def FreeIntegerInput.prompt (lo hi : Int) (unique : Bool) (choices : List Int) :
    List String → Option (List Int)
  | [] => none
  | line :: rest =>
    if line.length = 0 then some choices
    else
      match pythonInt line with
      | none => FreeIntegerInput.prompt lo hi unique choices rest
      | some choice =>
        if choice < lo ∨ choice > hi then
          FreeIntegerInput.prompt lo hi unique choices rest
        else if unique = true ∧ choice ∈ choices then
          FreeIntegerInput.prompt lo hi unique choices rest
        else
          FreeIntegerInput.prompt lo hi unique (choices ++ [choice]) rest

end UserInput

namespace ARIMAWrapper

/-- Auxiliary scan of Python `str.split(', ')` over a character list: cut at
every (leftmost, non-overlapping) occurrence of `", "`. -/
def splitCommaSpaceAux : List Char → List Char → List (List Char)
  | ',' :: ' ' :: rest, acc => acc.reverse :: splitCommaSpaceAux rest []
  | c :: rest, acc => splitCommaSpaceAux rest (c :: acc)
  | [], acc => [acc.reverse]

/-- Python `s.split(', ')`. -/
def splitCommaSpace (s : List Char) : List (List Char) :=
  splitCommaSpaceAux s []

/-- `ARIMAWrapper.parse_order` (model_wrappers.py line 256):
`order[1:-1].split(', ')` — a list of strings, despite the documented return
type `tuple[int, int, int]`. -/
def parse_order (order : String) : List String :=
  (splitCommaSpace ((order.data.drop 1).dropLast)).map String.mk

/-- Outcome of the external ARIMA construct + fit + predict + forecast calls for
one candidate: the in-sample prediction series and the out-of-sample forecast
mean series (model_wrappers.py lines 142-148). -/
structure FittedModel where
  insample : List Int
  outsample : List Int
deriving DecidableEq

/-- External-library oracle: for an order `(p, d, q)`, either the fitted
model's prediction data, or `none` when construction, fitting, prediction or
forecasting raises. -/
abbrev FitOracle := Int × Int × Int → Option FittedModel

/-- A metric callable taking `(y_true, y_pred)`; `none` models a raised
exception. -/
abbrev Metric := List Int → List Int → Option Int

/-- model_wrappers.py lines 150-153: when bounds `(lo, hi)` are supplied, any
value `x` of the combined prediction with `x < lo` or `x > hi` raises. -/
def boundsViolated : Option (Int × Int) → List Int → Bool
  | none, _ => false
  | some (lo, hi), xs => xs.any fun x => decide (x < lo ∨ x > hi)

/-- model_wrappers.py lines 156-158: apply each metric in turn to the train
target and the in-sample predictions; a raising metric aborts the candidate. -/
def computeMetrics : List Metric → List Int → List Int → Option (List Int)
  | [], _, _ => some []
  | m :: ms, t, pr =>
    match m t pr with
    | none => none
    | some v => (computeMetrics ms t pr).map fun vs => v :: vs

/-- The try-block body of model_wrappers.py lines 140-165 for one candidate
order, returning the data recorded on success (fitted model and metric
scores); `none` models any exception caught at line 167. -/
def tryCandidate (fit : FitOracle) (metrics : List Metric)
    (bounds : Option (Int × Int)) (train_target : List Int)
    (pdq : Int × Int × Int) : Option (FittedModel × List Int) :=
  match fit pdq with
  | none => none
  | some m =>
    let full_pred := m.insample ++ m.outsample
    if boundsViolated bounds full_pred then none
    else
      match computeMetrics metrics train_target m.insample with
      | none => none
      | some scores => some (m, scores)

/-- Python dict assignment `models[(p, d, q)] = model_fit`: overwrite the value
when the key is present, otherwise append the binding. -/
def dictInsert (m : List ((Int × Int × Int) × FittedModel)) (k : Int × Int × Int)
    (v : FittedModel) : List ((Int × Int × Int) × FittedModel) :=
  if k ∈ m.map Prod.fst then m.map (fun kv => if kv.1 = k then (k, v) else kv)
  else m ++ [(k, v)]

/-- State of the search loop: the `passes`/`failures` counters printed at the
end, the `orders` rows (order tuple plus metric scores) backing the result
`DataFrame`, and the `models` dict. -/
structure SearchState where
  passes : Nat
  failures : Nat
  orders : List ((Int × Int × Int) × List Int)
  models : List ((Int × Int × Int) × FittedModel)
deriving DecidableEq

/-- One grid-loop iteration (model_wrappers.py lines 140-168): on success
append the row, store the model when requested and bump `passes`; on any
exception bump `failures` only. -/
def step (fit : FitOracle) (metrics : List Metric) (bounds : Option (Int × Int))
    (train_target : List Int) (return_models : Bool)
    (st : SearchState) (pdq : Int × Int × Int) : SearchState :=
  match tryCandidate fit metrics bounds train_target pdq with
  | some (m, scores) =>
    { passes := st.passes + 1
      failures := st.failures
      orders := st.orders ++ [(pdq, scores)]
      models := if return_models then dictInsert st.models pdq m else st.models }
  | none => { st with failures := st.failures + 1 }

/-- Visit order of the triple-nested loop (model_wrappers.py lines 135-137). -/
def grid (p_values d_values q_values : List Int) : List (Int × Int × Int) :=
  p_values.flatMap fun p => d_values.flatMap fun d => q_values.map fun q => (p, d, q)

/-- Initial loop state (model_wrappers.py lines 124-129): counters zero, no
rows, empty dict. -/
def initState : SearchState :=
  { passes := 0, failures := 0, orders := [], models := [] }

/-- `ARIMAWrapper.exhaustive_search` (model_wrappers.py lines 89-178),
abstracted over the external fit/predict oracle.  The returned state carries
the printed counters, the result-table rows and the `models` dict. -/
def exhaustive_search (fit : FitOracle) (train_target : List Int)
    (p_values d_values q_values : List Int) (metrics : List Metric)
    (bounds : Option (Int × Int)) (return_models : Bool) : SearchState :=
  (grid p_values d_values q_values).foldl
    (step fit metrics bounds train_target return_models) initState

/-- Return value of `ARIMAWrapper.forecast_with`: a pandas Series for
`'insample'` and `'full'`, the forecast-results object for `'outsample'`. -/
inductive ForecastValue where
  | series : List Int → ForecastValue
  | forecastResults : List Int → ForecastValue
deriving DecidableEq

/-- `ARIMAWrapper.forecast_with` (model_wrappers.py lines 180-209). -/
def forecast_with (model_fit : FittedModel) (forecast : String) :
    Option ForecastValue :=
  let insample_pred := model_fit.insample
  let outsample_fc := model_fit.outsample
  let full_pred := insample_pred ++ outsample_fc
  if forecast = "insample" then some (ForecastValue.series insample_pred)
  else if forecast = "outsample" then some (ForecastValue.forecastResults outsample_fc)
  else if forecast = "full" then some (ForecastValue.series full_pred)
  else none

theorem step_passes_add_failures (fit : FitOracle) (metrics : List Metric)
    (bounds : Option (Int × Int)) (tt : List Int) (rm : Bool)
    (st : SearchState) (c : Int × Int × Int) :
    (step fit metrics bounds tt rm st c).passes +
      (step fit metrics bounds tt rm st c).failures = st.passes + st.failures + 1 := by
  rcases htc : tryCandidate fit metrics bounds tt c with _ | ⟨m, s⟩ <;>
    simp [step, htc] <;> omega

theorem foldl_step_counts (fit : FitOracle) (metrics : List Metric)
    (bounds : Option (Int × Int)) (tt : List Int) (rm : Bool)
    (l : List (Int × Int × Int)) (st : SearchState) :
    (l.foldl (step fit metrics bounds tt rm) st).passes +
      (l.foldl (step fit metrics bounds tt rm) st).failures =
      st.passes + st.failures + l.length := by
  induction l generalizing st with
  | nil => simp
  | cons c l ih =>
    simp only [List.foldl_cons, List.length_cons]
    rw [ih]
    have h := step_passes_add_failures fit metrics bounds tt rm st c
    omega

theorem length_inner_grid (p : Int) (ds qs : List Int) :
    (ds.flatMap fun d => qs.map fun q => (p, d, q)).length = ds.length * qs.length := by
  induction ds with
  | nil => simp
  | cons d ds ih =>
    simp only [List.flatMap_cons, List.length_append, List.length_map, List.length_cons, ih]
    ring

theorem grid_length (ps ds qs : List Int) :
    (grid ps ds qs).length = ps.length * ds.length * qs.length := by
  induction ps with
  | nil => simp [grid]
  | cons p ps ih =>
    simp only [grid, List.flatMap_cons, List.length_append, List.length_cons] at ih ⊢
    rw [length_inner_grid, ih]
    ring

theorem step_eq_of_none {fit : FitOracle} {metrics : List Metric}
    {bounds : Option (Int × Int)} {tt : List Int} {rm : Bool}
    {c : Int × Int × Int} (st : SearchState)
    (h : tryCandidate fit metrics bounds tt c = none) :
    step fit metrics bounds tt rm st c = { st with failures := st.failures + 1 } := by
  simp [step, h]

theorem step_eq_of_some {fit : FitOracle} {metrics : List Metric}
    {bounds : Option (Int × Int)} {tt : List Int} {rm : Bool}
    {c : Int × Int × Int} {m : FittedModel} {sc : List Int} (st : SearchState)
    (h : tryCandidate fit metrics bounds tt c = some (m, sc)) :
    step fit metrics bounds tt rm st c =
      { passes := st.passes + 1, failures := st.failures,
        orders := st.orders ++ [(c, sc)],
        models := if rm then dictInsert st.models c m else st.models } := by
  simp [step, h]

theorem tryCandidate_eq_some {fit : FitOracle} {metrics : List Metric}
    {bounds : Option (Int × Int)} {tt : List Int} {c : Int × Int × Int}
    {m : FittedModel} {sc : List Int}
    (h : tryCandidate fit metrics bounds tt c = some (m, sc)) :
    fit c = some m ∧ boundsViolated bounds (m.insample ++ m.outsample) = false ∧
      computeMetrics metrics tt m.insample = some sc := by
  unfold tryCandidate at h
  rcases hf : fit c with _ | m' <;> rw [hf] at h
  · simp at h
  · simp only at h
    by_cases hb : boundsViolated bounds (m'.insample ++ m'.outsample) = true
    · simp [hb] at h
    · rw [Bool.not_eq_true] at hb
      simp only [hb, if_false, Bool.false_eq_true] at h
      rcases hcm : computeMetrics metrics tt m'.insample with _ | sc' <;>
        rw [hcm] at h <;> simp at h
      obtain ⟨rfl, rfl⟩ := h
      exact ⟨rfl, hb, hcm⟩

theorem mem_orders_foldl {fit : FitOracle} {metrics : List Metric}
    {bounds : Option (Int × Int)} {tt : List Int} {rm : Bool}
    {l : List (Int × Int × Int)} {st : SearchState}
    {r : (Int × Int × Int) × List Int}
    (h : r ∈ (l.foldl (step fit metrics bounds tt rm) st).orders) :
    r ∈ st.orders ∨
      (r.1 ∈ l ∧ ∃ m, tryCandidate fit metrics bounds tt r.1 = some (m, r.2)) := by
  induction l generalizing st with
  | nil => exact Or.inl h
  | cons c l ih =>
    rw [List.foldl_cons] at h
    rcases ih h with h' | h'
    · rcases htc : tryCandidate fit metrics bounds tt c with _ | ⟨m, sc⟩
      · rw [step_eq_of_none st htc] at h'
        exact Or.inl h'
      · rw [step_eq_of_some st htc] at h'
        simp only [List.mem_append, List.mem_singleton] at h'
        rcases h' with h' | rfl
        · exact Or.inl h'
        · exact Or.inr ⟨List.mem_cons_self c l, m, htc⟩
    · exact Or.inr ⟨List.mem_cons_of_mem c h'.1, h'.2⟩

theorem orders_map_fst_foldl (fit : FitOracle) (metrics : List Metric)
    (bounds : Option (Int × Int)) (tt : List Int) (rm : Bool)
    (l : List (Int × Int × Int)) (st : SearchState) :
    ∃ s, (l.foldl (step fit metrics bounds tt rm) st).orders.map Prod.fst =
      st.orders.map Prod.fst ++ s ∧ s.Sublist l := by
  induction l generalizing st with
  | nil => exact ⟨[], by simp, List.Sublist.refl []⟩
  | cons c l ih =>
    rw [List.foldl_cons]
    obtain ⟨s, hs, hsub⟩ := ih (step fit metrics bounds tt rm st c)
    rcases htc : tryCandidate fit metrics bounds tt c with _ | ⟨m, sc⟩
    · refine ⟨s, ?_, hsub.cons c⟩
      rw [step_eq_of_none st htc] at hs ⊢
      simpa using hs
    · refine ⟨c :: s, ?_, hsub.cons₂ c⟩
      rw [step_eq_of_some st htc] at hs ⊢
      simp only [List.map_append, List.map_cons, List.map_nil] at hs
      rw [hs, List.append_assoc]
      rfl

theorem mem_dictInsert_keys (m : List ((Int × Int × Int) × FittedModel))
    (k : Int × Int × Int) (v : FittedModel) (j : Int × Int × Int) :
    j ∈ (dictInsert m k v).map Prod.fst ↔ j ∈ m.map Prod.fst ∨ j = k := by
  unfold dictInsert
  by_cases h : k ∈ m.map Prod.fst
  · have hmap : (m.map (fun kv => if kv.1 = k then (k, v) else kv)).map Prod.fst =
        m.map Prod.fst := by
      rw [List.map_map]
      refine List.map_congr_left fun kv _ => ?_
      by_cases hk : kv.1 = k <;> simp [hk]
    simp only [h, if_true, hmap]
    constructor
    · exact Or.inl
    · rintro (hj | rfl)
      · exact hj
      · exact h
  · simp [h]

theorem models_keys_iff_orders_keys_foldl {fit : FitOracle} {metrics : List Metric}
    {bounds : Option (Int × Int)} {tt : List Int}
    (l : List (Int × Int × Int)) (st : SearchState)
    (h : ∀ j, j ∈ st.models.map Prod.fst ↔ j ∈ st.orders.map Prod.fst)
    (j : Int × Int × Int) :
    j ∈ ((l.foldl (step fit metrics bounds tt true) st).models.map Prod.fst) ↔
      j ∈ ((l.foldl (step fit metrics bounds tt true) st).orders.map Prod.fst) := by
  induction l generalizing st with
  | nil => exact h j
  | cons c l ih =>
    rw [List.foldl_cons]
    refine ih (step fit metrics bounds tt true st c) fun i => ?_
    rcases htc : tryCandidate fit metrics bounds tt c with _ | ⟨m, sc⟩
    · rw [step_eq_of_none st htc]
      exact h i
    · rw [step_eq_of_some st htc]
      simp only [if_true, mem_dictInsert_keys, List.map_append, List.map_cons,
        List.map_nil, List.mem_append, List.mem_singleton, h i]

theorem initState_orders : initState.orders = [] := rfl

theorem boundsViolated_some_iff (lo hi : Int) (xs : List Int) :
    boundsViolated (some (lo, hi)) xs = true ↔ ∃ x ∈ xs, x < lo ∨ x > hi := by
  simp [boundsViolated]

theorem tryCandidate_none_of_bounds {fit : FitOracle} {metrics : List Metric}
    {tt : List Int} {c : Int × Int × Int} {m : FittedModel} {lo hi : Int}
    (hm : fit c = some m)
    (hb : boundsViolated (some (lo, hi)) (m.insample ++ m.outsample) = true) :
    tryCandidate fit metrics (some (lo, hi)) tt c = none := by
  unfold tryCandidate
  rw [hm]
  simp [hb]

theorem mem_grid (ps ds qs : List Int) (c : Int × Int × Int) :
    c ∈ grid ps ds qs ↔ c.1 ∈ ps ∧ c.2.1 ∈ ds ∧ c.2.2 ∈ qs := by
  rcases c with ⟨p, d, q⟩
  simp only [grid, List.mem_flatMap, List.mem_map, Prod.mk.injEq]
  constructor
  · rintro ⟨a, ha, b, hb, e, he, rfl, rfl, rfl⟩
    exact ⟨ha, hb, he⟩
  · rintro ⟨hp, hd, hq⟩
    exact ⟨p, hp, d, hd, q, hq, rfl, rfl, rfl⟩

end ARIMAWrapper

open ARIMAWrapper

/-- C3: whenever any step for a single candidate of the grid raises
(`tryCandidate` returning `none` models an exception during construction,
fitting, prediction or the bounds check), that candidate contributes no row
and no model, the failure counter increments by one, and the fold continues
over every remaining combination: the search result is the fold over the
suffix started from the failure-incremented state, so no per-candidate
exception aborts the outer loop or escapes to the caller. -/
theorem C3_failure_isolated (fit : FitOracle) (train_target : List Int)
    (p_values d_values q_values : List Int) (metrics : List Metric)
    (bounds : Option (Int × Int)) (return_models : Bool)
    (pre suf : List (Int × Int × Int)) (c : Int × Int × Int)
    (hgrid : grid p_values d_values q_values = pre ++ c :: suf)
    (hfail : tryCandidate fit metrics bounds train_target c = none) :
    step fit metrics bounds train_target return_models
        (pre.foldl (step fit metrics bounds train_target return_models) initState) c =
      { pre.foldl (step fit metrics bounds train_target return_models) initState with
        failures := (pre.foldl (step fit metrics bounds train_target return_models)
          initState).failures + 1 } ∧
    exhaustive_search fit train_target p_values d_values q_values metrics bounds
        return_models =
      suf.foldl (step fit metrics bounds train_target return_models)
        (step fit metrics bounds train_target return_models
          (pre.foldl (step fit metrics bounds train_target return_models) initState) c) := by
  refine ⟨step_eq_of_none _ hfail, ?_⟩
  unfold exhaustive_search
  rw [hgrid, List.foldl_append, List.foldl_cons]

theorem C3_failure_isolated_witness :
    grid [0] [0] [0] = [(0, 0, 0)] ∧
    tryCandidate (fun _ => none) [] none [] (0, 0, 0) = none ∧
    (step (fun _ => none) [] none [] false initState (0, 0, 0) =
        { initState with failures := initState.failures + 1 } ∧
      exhaustive_search (fun _ => none) [] [0] [0] [0] [] none false =
        step (fun _ => none) [] none [] false initState (0, 0, 0)) :=
  ⟨rfl, rfl,
    C3_failure_isolated (fun _ => none) [] [0] [0] [0] [] none false [] [] (0, 0, 0)
      rfl rfl⟩

/-- C4: with bounds `(lo, hi)` supplied, a candidate whose concatenated
in-sample-plus-forecast prediction sequence contains a value strictly below
`lo` or strictly above `hi` is treated as a failure (only the failure counter
changes, no row and no model is added), and consequently every row of the
returned table comes from a candidate whose combined prediction sequence lies
entirely within `[lo, hi]`. -/
theorem C4_bounds_respected (fit : FitOracle) (train_target : List Int)
    (p_values d_values q_values : List Int) (metrics : List Metric)
    (lo hi : Int) (return_models : Bool) :
    (∀ (st : SearchState) (c : Int × Int × Int) (m : FittedModel), fit c = some m →
      (∃ x ∈ m.insample ++ m.outsample, x < lo ∨ x > hi) →
      step fit metrics (some (lo, hi)) train_target return_models st c =
        { st with failures := st.failures + 1 }) ∧
    (∀ r ∈ (exhaustive_search fit train_target p_values d_values q_values metrics
        (some (lo, hi)) return_models).orders,
      ∃ m, fit r.1 = some m ∧ ∀ x ∈ m.insample ++ m.outsample, lo ≤ x ∧ x ≤ hi) := by
  constructor
  · intro st c m hm hx
    exact step_eq_of_none st
      (tryCandidate_none_of_bounds hm ((boundsViolated_some_iff lo hi _).mpr hx))
  · intro r hr
    unfold exhaustive_search at hr
    rcases mem_orders_foldl hr with h | ⟨-, m, htc⟩
    · simp [initState] at h
    · obtain ⟨hm, hb, -⟩ := tryCandidate_eq_some htc
      refine ⟨m, hm, fun x hx => ?_⟩
      have hnor : ¬(x < lo ∨ x > hi) := by
        intro hor
        have hviol := (boundsViolated_some_iff lo hi (m.insample ++ m.outsample)).mpr
          ⟨x, hx, hor⟩
        rw [hb] at hviol
        exact Bool.false_ne_true hviol
      omega

theorem C4_bounds_respected_witness :
    (∃ x ∈ ([5] : List Int) ++ [6], x < 0 ∨ x > 4) ∧
    step (fun _ => some ⟨[5], [6]⟩) [] (some (0, 4)) [] false initState (0, 0, 0) =
      { initState with failures := initState.failures + 1 } ∧
    (((0, 0, 0), ([] : List Int)) ∈
      (exhaustive_search (fun _ => some ⟨[5], [6]⟩) [] [0] [0] [0] []
        (some (0, 100)) false).orders) ∧
    ∃ m, (fun _ => some (⟨[5], [6]⟩ : FittedModel)) ((0, 0, 0) : Int × Int × Int) =
        some m ∧ ∀ x ∈ m.insample ++ m.outsample, (0 : Int) ≤ x ∧ x ≤ 100 :=
  ⟨⟨5, by decide, by decide⟩,
    (C4_bounds_respected (fun _ => some ⟨[5], [6]⟩) [] [0] [0] [0] [] 0 4 false).1
      initState (0, 0, 0) ⟨[5], [6]⟩ rfl ⟨5, by decide, by decide⟩,
    by decide,
    (C4_bounds_respected (fun _ => some ⟨[5], [6]⟩) [] [0] [0] [0] [] 0 100 false).2
      ((0, 0, 0), []) (by decide)⟩

/-- C5: every row of the result table carries an order tuple `(p, d, q)` with
`p` drawn from the supplied p list, `d` from the d list and `q` from the q
list, and the sequence of row orders is a sublist of the nested grid
iteration sequence: insertion order equals grid iteration order. -/
theorem C5_rows_from_grid_in_order (fit : FitOracle) (train_target : List Int)
    (p_values d_values q_values : List Int) (metrics : List Metric)
    (bounds : Option (Int × Int)) (return_models : Bool) :
    ((exhaustive_search fit train_target p_values d_values q_values metrics bounds
        return_models).orders.map Prod.fst).Sublist
      (grid p_values d_values q_values) ∧
    ∀ r ∈ (exhaustive_search fit train_target p_values d_values q_values metrics
        bounds return_models).orders,
      r.1.1 ∈ p_values ∧ r.1.2.1 ∈ d_values ∧ r.1.2.2 ∈ q_values := by
  constructor
  · obtain ⟨s, hs, hsub⟩ := orders_map_fst_foldl fit metrics bounds train_target
      return_models (grid p_values d_values q_values) initState
    unfold exhaustive_search
    simp only [initState_orders, List.map_nil, List.nil_append] at hs
    rw [hs]
    exact hsub
  · intro r hr
    unfold exhaustive_search at hr
    rcases mem_orders_foldl hr with h | ⟨hmem, -⟩
    · simp [initState] at h
    · exact (mem_grid p_values d_values q_values r.1).mp hmem

theorem C5_rows_from_grid_in_order_witness :
    ((((0, 1, 2), []) : (Int × Int × Int) × List Int) ∈
      (exhaustive_search (fun _ => some ⟨[5], [6]⟩) [] [0] [1] [2] [] none
        false).orders) ∧
    ((0 : Int) ∈ [0] ∧ (1 : Int) ∈ [1] ∧ (2 : Int) ∈ [2]) :=
  ⟨by decide,
    (C5_rows_from_grid_in_order (fun _ => some ⟨[5], [6]⟩) [] [0] [1] [2] [] none
      false).2 ((0, 1, 2), []) (by decide)⟩

/-- C9: with `return_models = True`, the key set of the returned models dict
is exactly the set of order tuples appearing as rows of the result table: a
fitted model is retained for a combination iff that combination passed and
appears in the table. -/
theorem C9_models_keys_match_rows (fit : FitOracle) (train_target : List Int)
    (p_values d_values q_values : List Int) (metrics : List Metric)
    (bounds : Option (Int × Int)) (j : Int × Int × Int) :
    j ∈ (exhaustive_search fit train_target p_values d_values q_values metrics bounds
        true).models.map Prod.fst ↔
      j ∈ (exhaustive_search fit train_target p_values d_values q_values metrics
        bounds true).orders.map Prod.fst := by
  unfold exhaustive_search
  exact models_keys_iff_orders_keys_foldl (grid p_values d_values q_values) initState
    (fun i => by simp [initState]) j

/-- C1: for every call to `ARIMAWrapper.exhaustive_search` with candidate
lists `P`, `D`, `Q`, the pass count plus the failure count reported at the
end equals `|P| * |D| * |Q|`: every combination of the Cartesian product is
attempted exactly once and increments exactly one of the two counters. -/
theorem C1_pass_fail_accounting (fit : ARIMAWrapper.FitOracle)
    (train_target : List Int) (p_values d_values q_values : List Int)
    (metrics : List ARIMAWrapper.Metric) (bounds : Option (Int × Int))
    (return_models : Bool) :
    (ARIMAWrapper.exhaustive_search fit train_target p_values d_values q_values
        metrics bounds return_models).passes +
      (ARIMAWrapper.exhaustive_search fit train_target p_values d_values q_values
        metrics bounds return_models).failures =
      p_values.length * d_values.length * q_values.length := by
  unfold ARIMAWrapper.exhaustive_search
  rw [ARIMAWrapper.foldl_step_counts]
  simp [ARIMAWrapper.initState, ARIMAWrapper.grid_length]

/-- C2: evaluating `ARIMAWrapper.parse_order` on `"(1, 0, 2)"`, the literal
parenthesized comma-separated string form of the order `(1, 0, 2)`: the code
returns the list of component *strings* `["1", "0", "2"]` — not the integer
triple its own docstring and annotation (`tuple[int, int, int]`) promise —
so the round trip of the claim does not recover the three integer
components. -/
theorem C2_parse_order_returns_strings :
    ARIMAWrapper.parse_order "(1, 0, 2)" = ["1", "0", "2"] := by decide

/-- C10: for every fitted model, `ARIMAWrapper.forecast_with` returns `None`
(rather than raising or returning a series) when the forecast-selection
argument is any string other than `'insample'`, `'outsample'` or `'full'`. -/
theorem C10_forecast_with_unknown_option (model_fit : ARIMAWrapper.FittedModel)
    (s : String) (h1 : s ≠ "insample") (h2 : s ≠ "outsample") (h3 : s ≠ "full") :
    ARIMAWrapper.forecast_with model_fit s = none := by
  simp [ARIMAWrapper.forecast_with, h1, h2, h3]

theorem C10_forecast_with_unknown_option_witness :
    ("maybe" : String) ≠ "insample" ∧ ("maybe" : String) ≠ "outsample" ∧
      ("maybe" : String) ≠ "full" ∧
      ARIMAWrapper.forecast_with ⟨[1], [2]⟩ "maybe" = none :=
  ⟨by decide, by decide, by decide,
    C10_forecast_with_unknown_option ⟨[1], [2]⟩ "maybe" (by decide) (by decide)
      (by decide)⟩

theorem pythonInt_of_length_zero {line : String} (h : line.length = 0) :
    pythonInt line = none := by
  have hd : line.data = [] := List.length_eq_zero.mp h
  simp [pythonInt, stripChars, hd, digitsVal]

theorem eq_empty_of_length_zero {line : String} (h : line.length = 0) : line = "" := by
  cases line with
  | mk data =>
    have hd : data = [] := List.length_eq_zero.mp h
    subst hd
    rfl

/-- C6 counterexample: the constructor prompt `"Proceed? (y/n): "` does not
end with `"(y/n):"` (it ends with a space), so the claim as stated requires
the `"(y/n): "` suffix to be appended; the code instead right-strips
whitespace before testing the suffix and leaves this prompt unchanged. -/
theorem C6_suffix_counterexample :
    pyEndsWith "Proceed? (y/n): " "(y/n):" = false ∧
    UserInput.YesNoPrompt.mendPrompt "Proceed? (y/n): " = "Proceed? (y/n): " ∧
    "Proceed? (y/n): " ≠ "Proceed? (y/n): " ++ "(y/n): " := by
  refine ⟨by decide, by decide, by decide⟩

/-- C6 (amended): for the yes/no prompt, an input line whose lowercase form is
`"y"` terminates the loop returning `True`, one whose lowercase form is `"n"`
terminates returning `False`, and any other input causes a re-prompt without
returning; additionally, at construction the prompt text gets a `"(y/n): "`
suffix appended exactly when its right-whitespace-stripped form does not
already end with `"(y/n):"`. -/
theorem C6_yes_no_prompt (line : String) (rest : List String) (p : String) :
    (pyLower line = "y" → UserInput.YesNoPrompt.prompt (line :: rest) = some true) ∧
    (pyLower line = "n" → UserInput.YesNoPrompt.prompt (line :: rest) = some false) ∧
    (pyLower line ≠ "y" → pyLower line ≠ "n" →
      UserInput.YesNoPrompt.prompt (line :: rest) = UserInput.YesNoPrompt.prompt rest) ∧
    (pyEndsWith (pyRstrip p) "(y/n):" = false →
      UserInput.YesNoPrompt.mendPrompt p = p ++ "(y/n): ") ∧
    (pyEndsWith (pyRstrip p) "(y/n):" = true →
      UserInput.YesNoPrompt.mendPrompt p = p) := by
  refine ⟨?_, ?_, ?_, ?_, ?_⟩
  · intro h
    simp only [UserInput.YesNoPrompt.prompt]
    rw [h, if_pos (Or.inl rfl)]
    decide
  · intro h
    simp only [UserInput.YesNoPrompt.prompt]
    rw [h, if_pos (Or.inr rfl)]
    decide
  · intro h1 h2
    simp only [UserInput.YesNoPrompt.prompt]
    rw [if_neg]
    rintro (h | h)
    · exact h1 h
    · exact h2 h
  · intro h
    simp [UserInput.YesNoPrompt.mendPrompt, h]
  · intro h
    simp [UserInput.YesNoPrompt.mendPrompt, h]

theorem C6_yes_no_prompt_witness :
    pyLower "Y" = "y" ∧ UserInput.YesNoPrompt.prompt ["Y"] = some true ∧
    pyEndsWith (pyRstrip "Go?") "(y/n):" = false ∧
    UserInput.YesNoPrompt.mendPrompt "Go?" = "Go?" ++ "(y/n): " :=
  ⟨by decide, (C6_yes_no_prompt "Y" [] "Go?").1 (by decide), by decide,
    (C6_yes_no_prompt "Y" [] "Go?").2.2.2.1 (by decide)⟩

/-- C7: for the multiple-choice prompt, an input line is accepted exactly when
it parses as an integer `k` with `1 ≤ k ≤ N` (`N` the number of options), in
which case `k` is returned, and rejected with a re-prompt otherwise; with 4
options and the input sequence `["0", "5", "2"]` the first two inputs are
rejected and the prompt returns 2. -/
theorem C7_options_in_range (opts : List String) (line : String) (rest : List String) :
    (∀ k : Int, pythonInt line = some k → 1 ≤ k → k ≤ (opts.length : Int) →
      UserInput.OptionsList.prompt opts (line :: rest) = some k) ∧
    ((∀ k : Int, pythonInt line = some k → k < 1 ∨ k > (opts.length : Int)) →
      UserInput.OptionsList.prompt opts (line :: rest) =
        UserInput.OptionsList.prompt opts rest) ∧
    UserInput.OptionsList.prompt ["a", "b", "c", "d"] ["0", "5", "2"] = some 2 := by
  refine ⟨?_, ?_, by decide⟩
  · intro k hk h1 h2
    simp only [UserInput.OptionsList.prompt, hk]
    rw [if_neg (by omega)]
  · intro hrej
    rcases hk : pythonInt line with _ | k
    · simp only [UserInput.OptionsList.prompt, hk]
    · simp only [UserInput.OptionsList.prompt, hk]
      rw [if_pos (hrej k hk)]

theorem C7_options_in_range_witness :
    pythonInt "2" = some 2 ∧
    UserInput.OptionsList.prompt ["a", "b", "c", "d"] ["2"] = some 2 :=
  ⟨by decide, (C7_options_in_range ["a", "b", "c", "d"] "2" []).1 2 (by decide)
    (by decide) (by decide)⟩

/-- C8: for the bounded integer list prompt, an empty line terminates the
collection returning the accumulated list; a nonempty line is accepted and
appended iff it parses as an integer within the inclusive bounds that (when
`unique` is set) is not already in the accumulated list, and rejected with a
re-prompt otherwise; with bounds `(1, 10)` and `unique = True` the input
sequence `["3", "3", "7", ""]` yields `[3, 7]`. -/
theorem C8_bounded_integer_list (lo hi : Int) (unique : Bool) (acc : List Int)
    (line : String) (rest : List String) :
    (UserInput.FreeIntegerInput.prompt lo hi unique acc ("" :: rest) = some acc) ∧
    (∀ c : Int, pythonInt line = some c → lo ≤ c → c ≤ hi →
      (unique = true → c ∉ acc) →
      UserInput.FreeIntegerInput.prompt lo hi unique acc (line :: rest) =
        UserInput.FreeIntegerInput.prompt lo hi unique (acc ++ [c]) rest) ∧
    (line ≠ "" →
      (∀ c : Int, pythonInt line = some c → c < lo ∨ c > hi ∨ (unique = true ∧ c ∈ acc)) →
      UserInput.FreeIntegerInput.prompt lo hi unique acc (line :: rest) =
        UserInput.FreeIntegerInput.prompt lo hi unique acc rest) ∧
    UserInput.FreeIntegerInput.prompt 1 10 true [] ["3", "3", "7", ""] = some [3, 7] := by
  refine ⟨?_, ?_, ?_, by decide⟩
  · simp only [UserInput.FreeIntegerInput.prompt]
    rw [if_pos (by decide)]
  · intro c hc h1 h2 h3
    have hlen : ¬line.length = 0 := fun h =>
      Option.noConfusion (pythonInt_of_length_zero h ▸ hc)
    simp only [UserInput.FreeIntegerInput.prompt]
    rw [if_neg hlen]
    simp only [hc]
    rw [if_neg (by omega), if_neg (fun hand => (h3 hand.1) hand.2)]
  · intro hline hrej
    have hlen : ¬line.length = 0 := fun h => hline (eq_empty_of_length_zero h)
    rcases hk : pythonInt line with _ | c
    · simp only [UserInput.FreeIntegerInput.prompt]
      rw [if_neg hlen]
      simp only [hk]
    · simp only [UserInput.FreeIntegerInput.prompt]
      rw [if_neg hlen]
      simp only [hk]
      rcases hrej c hk with h | h | h
      · rw [if_pos (Or.inl h)]
      · rw [if_pos (Or.inr h)]
      · by_cases hb : c < lo ∨ c > hi
        · rw [if_pos hb]
        · rw [if_neg hb, if_pos h]

theorem C8_bounded_integer_list_witness :
    pythonInt "3" = some 3 ∧
    UserInput.FreeIntegerInput.prompt 1 10 true [] ["3", ""] =
      UserInput.FreeIntegerInput.prompt 1 10 true [3] [""] :=
  ⟨by decide, (C8_bounded_integer_list 1 10 true [] "3" [""]).2.1 3 (by decide)
    (by decide) (by decide) (fun _ => by decide)⟩

end Amara
